import Mathlib

/-!
# Resource-sharing service: shallow embedding and verification

A shallow embedding of the access-resolution core of the
resource-sharing service (`src/domains/sharing/sharing.service.ts`,
`src/domains/sharing/sharing.service.simple.ts`, `src/utils/errors.ts`,
`prisma/schema.prisma`).  The database is modelled as lists of rows;
`Date` values are modelled as natural-number timestamps; Prisma
query-builder calls (`findUnique`, `findFirst`, `findMany`, `count`)
and the two raw SQL queries are translated row-by-row into list
operations.  Fallible service methods return `Except AppError`.
-/

set_option autoImplicit false

namespace ResourceSharing

/-- `Date` values, modelled as natural-number timestamps. -/
abbrev Date := Nat

/-- Row of the `users` table (`model User` in `prisma/schema.prisma`). -/
structure User where
  id : String
  name : String
  email : String
  createdAt : Date
  deriving DecidableEq, Repr

/-- Row of the `groups` table (`model Group`). -/
structure Group where
  id : String
  name : String
  description : Option String
  createdAt : Date
  deriving DecidableEq, Repr

/-- Row of the `user_groups` join table (`model UserGroup`). -/
structure UserGroup where
  userId : String
  groupId : String
  joinedAt : Date
  deriving DecidableEq, Repr

/-- Row of the `resources` table (`model Resource`). -/
structure Resource where
  id : String
  name : String
  description : Option String
  isGlobal : Bool
  createdAt : Date
  deriving DecidableEq, Repr

/-- The `share_type` enum: a share targets either a user or a group. -/
inductive ShareType where
  | user
  | group
  deriving DecidableEq, Repr

/-- Row of the `resource_shares` table (`model ResourceShare`).
The schema declares `@@unique([resourceId, shareType, targetId])`. -/
structure ResourceShare where
  id : String
  resourceId : String
  shareType : ShareType
  targetId : String
  createdAt : Date
  deriving DecidableEq, Repr

/-- The persistent store: one list of rows per table. -/
structure DB where
  users : List User
  groups : List Group
  userGroups : List UserGroup
  resources : List Resource
  resourceShares : List ResourceShare
  deriving DecidableEq, Repr

/-! ## Errors (`src/utils/errors.ts`) -/

/-- `AppError` from `src/utils/errors.ts`: code, message, HTTP status
code, optional details record (modelled as a string association list). -/
structure AppError where
  code : String
  message : String
  statusCode : Nat
  details : Option (List (String × String))
  deriving DecidableEq, Repr

/-- `createNotFoundError(resource, id)`: always the single code
`RESOURCE_NOT_FOUND` with status 404; the entity kind and id go into
the message and the details record. -/
def createNotFoundError (resource id : String) : AppError :=
  { code := "RESOURCE_NOT_FOUND"
    message := resource ++ " with ID '" ++ id ++ "' not found"
    statusCode := 404
    details := some [("resource", resource), ("id", id)] }

/-- `createDatabaseError(message)`: code `DATABASE_ERROR`, status 500. -/
def createDatabaseError (message : String) : AppError :=
  { code := "DATABASE_ERROR"
    message := message
    statusCode := 500
    details := none }

/-! ## Service result types (`src/types`, `part_006`) -/

/-- The `AccessType` union: `'direct' | 'group' | 'global'`. -/
inductive AccessType where
  | direct
  | group
  | global
  deriving DecidableEq, Repr

/-- `AccessCheckResult` from the types module. -/
structure AccessCheckResult where
  hasAccess : Bool
  accessType : Option AccessType := none
  grantedAt : Option Date := none
  deriving DecidableEq, Repr

/-- A row returned by the access-list SQL query:
`SELECT DISTINCT id, name, email, access_type`. -/
structure AccessRow where
  id : String
  name : String
  email : String
  accessType : AccessType
  deriving DecidableEq, Repr

/-- `UserWithAccessType`: user as returned by `getResourceAccessList`,
with the per-call `createdAt := new Date()` timestamp. -/
structure UserWithAccessType where
  id : String
  name : String
  email : String
  createdAt : Date
  accessType : AccessType
  deriving DecidableEq, Repr

/-- Metadata block of `ResourceAccessListResponse`. -/
structure AccessListMetadata where
  totalUsers : Nat
  directShares : Nat
  groupShares : Nat
  isGlobal : Bool
  deriving DecidableEq, Repr

/-- `ResourceAccessListResponse`. -/
structure ResourceAccessListResponse where
  resource : Resource
  users : List UserWithAccessType
  metadata : AccessListMetadata
  deriving DecidableEq, Repr

/-- `PaginationResponse`. -/
structure PaginationResponse where
  total : Nat
  limit : Nat
  offset : Nat
  hasMore : Bool
  deriving DecidableEq, Repr

/-- `ResourceWithAccessType`: a resource as returned by
`getUserResources` (with access type and optional `sharedAt`). -/
structure ResourceWithAccessType where
  id : String
  name : String
  description : Option String
  isGlobal : Bool
  accessType : AccessType
  createdAt : Date
  sharedAt : Option Date
  deriving DecidableEq, Repr

/-- `UserResourcesResponse`. -/
structure UserResourcesResponse where
  user : User
  resources : List ResourceWithAccessType
  pagination : PaginationResponse
  deriving DecidableEq, Repr

/-- Sort order `'asc' | 'desc'`. -/
inductive SortOrder where
  | asc
  | desc
  deriving DecidableEq, Repr

/-! ## Query helpers -/

/-- Prisma `findUnique`/`findFirst` on a list of rows: the first row
satisfying the predicate. -/
def findRow {α : Type} (p : α → Bool) (rows : List α) : Option α :=
  rows.find? p

/-- Code-point comparison of characters (models platform collation). -/
def charLtB (a b : Char) : Bool := decide (a.val < b.val)

/-- Lexicographic order on character lists. -/
def strDataLeB : List Char → List Char → Bool
  | [], _ => true
  | _ :: _, [] => false
  | a :: as, b :: bs => charLtB a b || (a == b && strDataLeB as bs)

/-- Lexicographic code-point order on strings (models the collation
used by SQL `ORDER BY` / JS string comparison on text columns). -/
def strLeB (a b : String) : Bool := strDataLeB a.data b.data

/-- Insert an element into a list sorted by `le`, keeping it sorted. -/
def insertSorted {α : Type} (le : α → α → Bool) (a : α) : List α → List α
  | [] => [a]
  | b :: l => if le a b then a :: b :: l else b :: insertSorted le a l

/-- Stable insertion sort: models a SQL / Prisma `ORDER BY` over rows. -/
def sortRows {α : Type} (le : α → α → Bool) : List α → List α
  | [] => []
  | a :: l => insertSorted le a (sortRows le l)

/-- Sort a list of rows by a `String` key, ascending or descending
(models a SQL / Prisma `ORDER BY` on a text column). -/
def sortByStr {α : Type} (key : α → String) (order : SortOrder) (rows : List α) : List α :=
  match order with
  | .asc => sortRows (fun a b => strLeB (key a) (key b)) rows
  | .desc => sortRows (fun a b => strLeB (key b) (key a)) rows

/-- Sort a list of rows by a `Nat` key (models `ORDER BY` on a numeric
or timestamp column). -/
def sortByNat {α : Type} (key : α → Nat) (order : SortOrder) (rows : List α) : List α :=
  match order with
  | .asc => sortRows (fun a b => decide (key a ≤ key b)) rows
  | .desc => sortRows (fun a b => decide (key b ≤ key a)) rows

/-- The group ids of a user's memberships: `db.userGroup.findMany({where:
{userId}}).map(g => g.groupId)` — computed this way at each of its three
use sites in the service. -/
def userGroupIdsOf (db : DB) (userId : String) : List String :=
  (db.userGroups.filter (fun ug => ug.userId == userId)).map (·.groupId)

namespace SharingService

/-! ## `checkUserAccess` (`sharing.service.ts`, lines 747-810) -/

/-- `checkUserAccess(userId, resourceId)`: resource missing → `hasAccess
= false` (no error); global → global access; else first matching direct
share, else first group share whose target is one of the user's groups. -/
def checkUserAccess (db : DB) (userId resourceId : String) :
    Except AppError AccessCheckResult :=
  match findRow (fun r => r.id == resourceId) db.resources with
  | none => .ok { hasAccess := false }
  | some resource =>
    if resource.isGlobal then
      .ok { hasAccess := true, accessType := some .global }
    else
      match findRow
          (fun s => s.resourceId == resourceId && s.shareType == ShareType.user
            && s.targetId == userId) db.resourceShares with
      | some directAccess =>
        .ok { hasAccess := true, accessType := some .direct
              grantedAt := some directAccess.createdAt }
      | none =>
        let groupIds := userGroupIdsOf db userId
        match findRow
            (fun s => s.resourceId == resourceId && s.shareType == ShareType.group
              && groupIds.contains s.targetId) db.resourceShares with
        | some groupAccess =>
          .ok { hasAccess := true, accessType := some .group
                grantedAt := some groupAccess.createdAt }
        | none => .ok { hasAccess := false }

/-! ## `getResourceAccessList` (`sharing.service.ts`, lines 502-601) -/

/-- The `direct_users` CTE: `users u JOIN resource_shares rs ON u.id =
rs.target_id WHERE rs.resource_id = ? AND rs.share_type = 'user'`. -/
def directRows (db : DB) (resourceId : String) : List AccessRow :=
  db.users.flatMap (fun u =>
    (db.resourceShares.filter (fun rs =>
        u.id == rs.targetId && rs.resourceId == resourceId
          && rs.shareType == ShareType.user)).map
      (fun _ => ⟨u.id, u.name, u.email, AccessType.direct⟩))

/-- The `group_users` CTE: `users u JOIN user_groups ug ON u.id =
ug.user_id JOIN resource_shares rs ON ug.group_id = rs.target_id WHERE
rs.resource_id = ? AND rs.share_type = 'group'`. -/
def groupRows (db : DB) (resourceId : String) : List AccessRow :=
  db.users.flatMap (fun u =>
    db.userGroups.flatMap (fun ug =>
      if u.id == ug.userId then
        (db.resourceShares.filter (fun rs =>
            ug.groupId == rs.targetId && rs.resourceId == resourceId
              && rs.shareType == ShareType.group)).map
          (fun _ => ⟨u.id, u.name, u.email, AccessType.group⟩)
      else []))

/-- The full access query: `direct_users UNION group_users`, then
`SELECT DISTINCT id, name, email, access_type ... ORDER BY name`.
`DISTINCT` deduplicates whole rows (the `access_type` column included). -/
def accessQueryRows (db : DB) (resourceId : String) : List AccessRow :=
  sortByStr (·.name) .asc ((directRows db resourceId ++ groupRows db resourceId).dedup)

/-- `getResourceAccessList(resourceId)` at clock instant `now` (the
value of `new Date()` during the call): missing resource → `NotFound`;
global resource → every user tagged `global` with zeroed share counts;
else the SQL access query plus raw share-row counts. -/
def getResourceAccessList (db : DB) (now : Date) (resourceId : String) :
    Except AppError ResourceAccessListResponse :=
  match findRow (fun r => r.id == resourceId) db.resources with
  | none => .error (createNotFoundError "Resource" resourceId)
  | some resource =>
    if resource.isGlobal then
      .ok { resource := resource
            users := db.users.map (fun u =>
              { id := u.id, name := u.name, email := u.email
                createdAt := now, accessType := AccessType.global })
            metadata := { totalUsers := db.users.length
                          directShares := 0, groupShares := 0, isGlobal := true } }
    else
      let usersWithAccess := accessQueryRows db resourceId
      let directCount := (db.resourceShares.filter (fun s =>
        s.resourceId == resourceId && s.shareType == ShareType.user)).length
      let groupCount := (db.resourceShares.filter (fun s =>
        s.resourceId == resourceId && s.shareType == ShareType.group)).length
      .ok { resource := resource
            users := usersWithAccess.map (fun row =>
              { id := row.id, name := row.name, email := row.email
                createdAt := now, accessType := row.accessType })
            metadata := { totalUsers := usersWithAccess.length
                          directShares := directCount, groupShares := groupCount
                          isGlobal := false } }

/-! ## `getUserResources` (`sharing.service.ts`, lines 607-741) -/

/-- String form of an access type, as it appears in query results
(`'direct' | 'group' | 'global'`). -/
def accessTypeStr : AccessType → String
  | .direct => "direct"
  | .group => "group"
  | .global => "global"

/-- The `orderBy` whitelist used by `getUserResources` and
`getResourcesWithUserCount`: `['name', 'createdAt']`, any other sort
falling back to `name` ascending. -/
def orderResourcesBy (sort : String) (order : SortOrder) (rows : List Resource) :
    List Resource :=
  if sort == "name" then sortByStr (·.name) order rows
  else if sort == "createdAt" then sortByNat (·.createdAt) order rows
  else sortByStr (·.name) SortOrder.asc rows

/-- The per-resource access decision inside `getUserResources`'s `map`:
global → `global` entry; else first direct share on this resource for
this user; else first group share targeting one of the user's groups;
else `null` (no access, resource dropped by the `filter`). -/
def resourceAccessEntry (db : DB) (userId : String) (userGroupIds : List String)
    (resource : Resource) : Option ResourceWithAccessType :=
  if resource.isGlobal then
    some { id := resource.id, name := resource.name
           description := resource.description, isGlobal := resource.isGlobal
           accessType := .global, createdAt := resource.createdAt, sharedAt := none }
  else
    let resourceShares := db.resourceShares.filter (fun s => s.resourceId == resource.id)
    match findRow (fun s => s.shareType == ShareType.user && s.targetId == userId)
        resourceShares with
    | some directShare =>
      some { id := resource.id, name := resource.name
             description := resource.description, isGlobal := resource.isGlobal
             accessType := .direct, createdAt := resource.createdAt
             sharedAt := some directShare.createdAt }
    | none =>
      match findRow (fun s => s.shareType == ShareType.group
          && userGroupIds.contains s.targetId) resourceShares with
      | some groupShare =>
        some { id := resource.id, name := resource.name
               description := resource.description, isGlobal := resource.isGlobal
               accessType := .group, createdAt := resource.createdAt
               sharedAt := some groupShare.createdAt }
      | none => none

/-- The access-filtered resource list of `getUserResources`: the sorted
resource table mapped through the per-resource access decision, `null`
(no-access) entries dropped. -/
def userAccessibleList (db : DB) (userId : String) (sort : String) (order : SortOrder) :
    List ResourceWithAccessType :=
  (orderResourcesBy sort order db.resources).filterMap
    (resourceAccessEntry db userId (userGroupIdsOf db userId))

/-- `getUserResources(userId, {limit, offset, sort, order})`: missing
user → `NotFound`; else the access-filtered resource list is built over
the whole (sorted) resource table, paginated by `slice(offset, offset +
limit)`, with `total` the full filtered count and `hasMore = offset +
limit < total`; a `sort = 'access_type'` request re-sorts the returned
page in memory. -/
def getUserResources (db : DB) (userId : String) (limit offset : Nat)
    (sort : String) (order : SortOrder) : Except AppError UserResourcesResponse :=
  match findRow (fun u => u.id == userId) db.users with
  | none => .error (createNotFoundError "User" userId)
  | some user =>
    let accessibleResources := userAccessibleList db userId sort order
    let slicedResources := (accessibleResources.drop offset).take limit
    let paginatedResources :=
      if sort == "access_type" then
        sortByStr (fun r => accessTypeStr r.accessType) order slicedResources
      else slicedResources
    .ok { user := user
          resources := paginatedResources
          pagination := { total := accessibleResources.length
                          limit := limit, offset := offset
                          hasMore := decide (offset + limit < accessibleResources.length) } }

/-! ## `createShare` (`sharing.service.ts`, lines 815-827) -/

/-- `ShareCreationParams`. -/
structure ShareCreationParams where
  resourceId : String
  shareType : ShareType
  targetId : String
  deriving DecidableEq, Repr

/-- `db.resourceShare.create(...)`: the store-level insert.  It honours
the schema's constraints: the foreign key `resource_id → resources.id`
and `@@unique([resourceId, shareType, targetId])`; `target_id` carries
no constraint (the schema notes the polymorphic target is handled in
application logic).  `newId`/`now` are the generated row id and the
insertion timestamp. -/
def dbCreateResourceShare (db : DB) (newId : String) (now : Date)
    (resourceId : String) (shareType : ShareType) (targetId : String) :
    Except String DB :=
  if (findRow (fun r => r.id == resourceId) db.resources).isNone then
    .error "Foreign key constraint violated: resource_id"
  else if db.resourceShares.any (fun s =>
      s.resourceId == resourceId && s.shareType == shareType
        && s.targetId == targetId) then
    .error "Unique constraint failed: (resource_id, share_type, target_id)"
  else
    .ok { db with resourceShares := db.resourceShares ++
            [{ id := newId, resourceId := resourceId, shareType := shareType
               targetId := targetId, createdAt := now }] }

/-- `createShare(params)` of the exported `SharingService`: inserts
directly, with no validation of the target; any store failure is
wrapped as a `DatabaseError`. -/
def createShare (db : DB) (newId : String) (now : Date)
    (params : ShareCreationParams) : Except AppError DB :=
  match dbCreateResourceShare db newId now
      params.resourceId params.shareType params.targetId with
  | .ok db2 => .ok db2
  | .error e => .error (createDatabaseError ("Failed to create share: " ++ e))

/-! ## `getResourcesWithUserCount` (`sharing.service.ts`, lines 833-950) -/

/-- `ResourceWithUserCount`. -/
structure ResourceWithUserCount where
  id : String
  name : String
  description : Option String
  isGlobal : Bool
  createdAt : Date
  userCount : Nat
  directShares : Nat
  groupShares : Nat
  deriving DecidableEq, Repr

/-- Summary block of the resource-statistics response
(`avgUsersPerResource` is the exact rational the JS float computes). -/
structure ResourceStatsSummary where
  totalResources : Nat
  globalResources : Nat
  totalUniqueUsers : Nat
  avgUsersPerResource : ℚ
  deriving DecidableEq, Repr

/-- Resource-statistics response. -/
structure ResourceStatsResponse where
  resources : List ResourceWithUserCount
  pagination : PaginationResponse
  summary : ResourceStatsSummary
  deriving DecidableEq, Repr

/-- The per-resource stats computation inside `getResourcesWithUserCount`:
global → `userCount = totalUsers` with zeroed share counts; else the
deduplicated union of direct targets and members of targeted groups,
plus raw share-row counts. -/
def resourceUserCountEntry (db : DB) (totalUsers : Nat) (resource : Resource) :
    ResourceWithUserCount :=
  if resource.isGlobal then
    { id := resource.id, name := resource.name
      description := resource.description, isGlobal := resource.isGlobal
      createdAt := resource.createdAt
      userCount := totalUsers, directShares := 0, groupShares := 0 }
  else
    let shares := db.resourceShares.filter (fun s => s.resourceId == resource.id)
    let directShares := shares.filter (fun s => s.shareType == ShareType.user)
    let groupShares := shares.filter (fun s => s.shareType == ShareType.group)
    let directUserIds := directShares.map (·.targetId)
    let groupUserIds := groupShares.flatMap (fun share =>
      (db.userGroups.filter (fun ug => ug.groupId == share.targetId)).map (·.userId))
    { id := resource.id, name := resource.name
      description := resource.description, isGlobal := resource.isGlobal
      createdAt := resource.createdAt
      userCount := (directUserIds ++ groupUserIds).dedup.length
      directShares := directShares.length, groupShares := groupShares.length }

/-- `getResourcesWithUserCount({limit, offset, minUsers, sort, order})`:
the resource table is windowed first (`take: limit, skip: offset` on the
sorted table), user counts are computed for the window, and only then is
the `minUsers` filter applied; `pagination.total` is the filtered page
length and `hasMore` compares that length with `limit`. -/
def getResourcesWithUserCount (db : DB) (limit offset minUsers : Nat)
    (sort : String) (order : SortOrder) : ResourceStatsResponse :=
  let resources := ((orderResourcesBy sort order db.resources).drop offset).take limit
  let totalUsers := db.users.length
  let processedResources := resources.map (resourceUserCountEntry db totalUsers)
  let filteredResources :=
    processedResources.filter (fun r => decide (minUsers ≤ r.userCount))
  let sortedFiltered :=
    if sort == "user_count" then sortByNat (·.userCount) order filteredResources
    else filteredResources
  { resources := sortedFiltered
    pagination := { total := sortedFiltered.length, limit := limit, offset := offset
                    hasMore := sortedFiltered.length == limit }
    summary := { totalResources := db.resources.length
                 globalResources := (db.resources.filter (·.isGlobal)).length
                 totalUniqueUsers := totalUsers
                 avgUsersPerResource :=
                   if 0 < sortedFiltered.length then
                     ((sortedFiltered.map (·.userCount)).sum : ℚ) / sortedFiltered.length
                   else 0 } }

/-! ## `getUsersWithResourceCount` (`sharing.service.ts`, lines 956-1071) -/

/-- `UserWithResourceCount`. -/
structure UserWithResourceCount where
  id : String
  name : String
  email : String
  createdAt : Date
  resourceCount : Nat
  directResources : Nat
  groupResources : Nat
  globalResources : Nat
  deriving DecidableEq, Repr

/-- Summary block of the user-statistics response. -/
structure UserStatsSummary where
  totalUsers : Nat
  totalResources : Nat
  avgResourcesPerUser : ℚ
  deriving DecidableEq, Repr

/-- User-statistics response. -/
structure UserStatsResponse where
  users : List UserWithResourceCount
  pagination : PaginationResponse
  summary : UserStatsSummary
  deriving DecidableEq, Repr

/-- The `orderBy` whitelist used by `getUsersWithResourceCount`:
`['name', 'email', 'createdAt']`, any other sort falling back to
`name` ascending. -/
def orderUsersBy (sort : String) (order : SortOrder) (rows : List User) : List User :=
  if sort == "name" then sortByStr (·.name) order rows
  else if sort == "email" then sortByStr (·.email) order rows
  else if sort == "createdAt" then sortByNat (·.createdAt) order rows
  else sortByStr (·.name) SortOrder.asc rows

/-- The per-user stats computation inside `getUsersWithResourceCount`:
`resourceCount` is the deduplicated direct-or-group resource set plus
the global-resource count; `directResources`/`groupResources` are raw
matching share-row counts. -/
def userResourceCountEntry (db : DB) (globalResourcesCount : Nat) (user : User) :
    UserWithResourceCount :=
  let userGroupIds := userGroupIdsOf db user.id
  let directShares := db.resourceShares.filter (fun s =>
    s.shareType == ShareType.user && s.targetId == user.id)
  let groupShares := db.resourceShares.filter (fun s =>
    s.shareType == ShareType.group && userGroupIds.contains s.targetId)
  let allResourceIds :=
    (directShares.map (·.resourceId) ++ groupShares.map (·.resourceId)).dedup
  { id := user.id, name := user.name, email := user.email
    createdAt := user.createdAt
    resourceCount := allResourceIds.length + globalResourcesCount
    directResources := directShares.length
    groupResources := groupShares.length
    globalResources := globalResourcesCount }

/-- `getUsersWithResourceCount({limit, offset, minResources, sort,
order})`: window the sorted user table, compute per-user counts, then
filter by `minResources`; `pagination.total` is the filtered page length
and `hasMore` compares that length with `limit`. -/
def getUsersWithResourceCount (db : DB) (limit offset minResources : Nat)
    (sort : String) (order : SortOrder) : UserStatsResponse :=
  let users := ((orderUsersBy sort order db.users).drop offset).take limit
  let globalResourcesCount := (db.resources.filter (·.isGlobal)).length
  let processedUsers := users.map (userResourceCountEntry db globalResourcesCount)
  let filteredUsers :=
    processedUsers.filter (fun u => decide (minResources ≤ u.resourceCount))
  let sortedFiltered :=
    if sort == "resource_count" then sortByNat (·.resourceCount) order filteredUsers
    else filteredUsers
  { users := sortedFiltered
    pagination := { total := sortedFiltered.length, limit := limit, offset := offset
                    hasMore := sortedFiltered.length == limit }
    summary := { totalUsers := db.users.length
                 totalResources := db.resources.length
                 avgResourcesPerUser :=
                   if 0 < sortedFiltered.length then
                     ((sortedFiltered.map (·.resourceCount)).sum : ℚ) / sortedFiltered.length
                   else 0 } }

end SharingService

namespace SimpleSharingService

/-! ## `createShare` (`sharing.service.simple.ts`, lines 83-128) -/

/-- `createShare(params)` of the `SharingService` in
`sharing.service.simple.ts`: validates that the resource exists, then
that the target exists in the table named by `shareType`, and only then
inserts; `AppError`s are rethrown, store failures (the duplicate-grant
unique violation included) are wrapped as `DatabaseError`. -/
def createShare (db : DB) (newId : String) (now : Date)
    (params : SharingService.ShareCreationParams) : Except AppError DB :=
  match findRow (fun r => r.id == params.resourceId) db.resources with
  | none => .error (createNotFoundError "Resource" params.resourceId)
  | some _ =>
    let validTarget : Except AppError Unit :=
      match params.shareType with
      | .user =>
        match findRow (fun u => u.id == params.targetId) db.users with
        | none => .error (createNotFoundError "User" params.targetId)
        | some _ => .ok ()
      | .group =>
        match findRow (fun g => g.id == params.targetId) db.groups with
        | none => .error (createNotFoundError "Group" params.targetId)
        | some _ => .ok ()
    match validTarget with
    | .error e => .error e
    | .ok _ =>
      match SharingService.dbCreateResourceShare db newId now
          params.resourceId params.shareType params.targetId with
      | .ok db2 => .ok db2
      | .error e => .error (createDatabaseError ("Failed to create share: " ++ e))

end SimpleSharingService

/-! ## Access predicates

Prop-level characterisations of the three grant mechanisms, used to
relate the three independent resolution paths. -/

/-- A share row grants `userId` direct access to `resourceId`. -/
def HasDirectShare (db : DB) (userId resourceId : String) : Prop :=
  ∃ s ∈ db.resourceShares,
    s.resourceId = resourceId ∧ s.shareType = ShareType.user ∧ s.targetId = userId

/-- A share row targets a group `userId` belongs to. -/
def HasGroupShare (db : DB) (userId resourceId : String) : Prop :=
  ∃ s ∈ db.resourceShares,
    s.resourceId = resourceId ∧ s.shareType = ShareType.group ∧
      ∃ ug ∈ db.userGroups, ug.userId = userId ∧ ug.groupId = s.targetId

instance (db : DB) (userId resourceId : String) :
    Decidable (HasDirectShare db userId resourceId) := by
  unfold HasDirectShare; infer_instance

instance (db : DB) (userId resourceId : String) :
    Decidable (HasGroupShare db userId resourceId) := by
  unfold HasGroupShare; infer_instance

/-- Count of resources the user can access, over the raw resource
table: the access-filtered, deduplicated set resolved per resource. -/
def userAccessibleCount (db : DB) (userId : String) : Nat :=
  db.resources.countP (fun r =>
    (SharingService.resourceAccessEntry db userId (userGroupIdsOf db userId) r).isSome)

/-- Modelled from the spec: the resource-statistics page shape asserted
by the filter-before-window reading of the `minUsers` filter — compute
every resource's `userCount`, apply the `minUsers` filter to the full
candidate set, then window the filtered list with `offset`/`limit`.
(Stated for comparison with `getResourcesWithUserCount`, which windows
the resource table first.) -/
def claimedFilterFirstPage (db : DB) (limit offset minUsers : Nat)
    (sort : String) (order : SortOrder) : List SharingService.ResourceWithUserCount :=
  let allProcessed := (SharingService.orderResourcesBy sort order db.resources).map
    (SharingService.resourceUserCountEntry db db.users.length)
  let filtered := allProcessed.filter (fun r => decide (minUsers ≤ r.userCount))
  (filtered.drop offset).take limit

/-! ## Concrete states used as witnesses and counterexamples -/

/-- A user, a group the user belongs to, a non-global resource shared
directly with the user, and a global resource. -/
def aliceUser : User := { id := "u1", name := "Alice", email := "alice@x", createdAt := 5 }

def res1 : Resource :=
  { id := "r1", name := "Docs", description := none, isGlobal := false, createdAt := 2 }

def res2 : Resource :=
  { id := "r2", name := "Handbook", description := none, isGlobal := true, createdAt := 3 }

def dbPair : DB :=
  { users := [aliceUser]
    groups := [{ id := "g1", name := "G", description := none, createdAt := 0 }]
    userGroups := [{ userId := "u1", groupId := "g1", joinedAt := 1 }]
    resources := [res1, res2]
    resourceShares :=
      [{ id := "s1", resourceId := "r1", shareType := .user, targetId := "u1", createdAt := 3 }] }

/-- A user who is both directly shared a resource and a member of a
group shared the same resource. -/
def dbOverlap : DB :=
  { users := [aliceUser]
    groups := [{ id := "g1", name := "G", description := none, createdAt := 0 }]
    userGroups := [{ userId := "u1", groupId := "g1", joinedAt := 1 }]
    resources := [res1]
    resourceShares :=
      [{ id := "s1", resourceId := "r1", shareType := .user, targetId := "u1", createdAt := 3 },
       { id := "s2", resourceId := "r1", shareType := .group, targetId := "g1", createdAt := 4 }] }

/-- One user; resource "a" (no shares, 0 users) sorts before the global
resource "b" (1 user). -/
def dbWindow : DB :=
  { users := [aliceUser]
    groups := []
    userGroups := []
    resources :=
      [{ id := "ra", name := "a", description := none, isGlobal := false, createdAt := 0 },
       { id := "rb", name := "b", description := none, isGlobal := true, createdAt := 1 }]
    resourceShares := [] }

/-- A resource with no users at all. -/
def dbShareOnly : DB :=
  { users := [], groups := [], userGroups := []
    resources := [res1]
    resourceShares := [] }

end ResourceSharing

instance {ε α : Type} [DecidableEq ε] [DecidableEq α] : DecidableEq (Except ε α) := fun a b =>
  match a, b with
  | .error e, .error e' =>
    if h : e = e' then isTrue (congrArg Except.error h)
    else isFalse (fun hc => h (Except.error.inj hc))
  | .ok x, .ok y =>
    if h : x = y then isTrue (congrArg Except.ok h)
    else isFalse (fun hc => h (Except.ok.inj hc))
  | .error _, .ok _ => isFalse (fun hc => Except.noConfusion hc)
  | .ok _, .error _ => isFalse (fun hc => Except.noConfusion hc)

namespace ResourceSharing

/-! ## Sorting lemmas -/

theorem insertSorted_perm {α : Type} (le : α → α → Bool) (a : α) (l : List α) :
    List.Perm (insertSorted le a l) (a :: l) := by
  induction l with
  | nil => exact List.Perm.refl _
  | cons b t ih =>
    simp only [insertSorted]
    split
    · exact List.Perm.refl _
    · exact (ih.cons b).trans (List.Perm.swap a b t)

theorem sortRows_perm {α : Type} (le : α → α → Bool) (l : List α) : List.Perm (sortRows le l) l := by
  induction l with
  | nil => exact List.Perm.refl _
  | cons a t ih => exact (insertSorted_perm le a (sortRows le t)).trans (ih.cons a)

theorem mem_sortRows {α : Type} {le : α → α → Bool} {x : α} {l : List α} :
    x ∈ sortRows le l ↔ x ∈ l :=
  (sortRows_perm le l).mem_iff

theorem length_sortRows {α : Type} (le : α → α → Bool) (l : List α) :
    (sortRows le l).length = l.length :=
  (sortRows_perm le l).length_eq

theorem sortByStr_perm {α : Type} (key : α → String) (order : SortOrder) (rows : List α) :
    List.Perm (sortByStr key order rows) rows := by
  cases order <;> exact sortRows_perm _ rows

theorem sortByNat_perm {α : Type} (key : α → Nat) (order : SortOrder) (rows : List α) :
    List.Perm (sortByNat key order rows) rows := by
  cases order <;> exact sortRows_perm _ rows

theorem orderResourcesBy_perm (sort : String) (order : SortOrder) (rows : List Resource) :
    List.Perm (SharingService.orderResourcesBy sort order rows) rows := by
  unfold SharingService.orderResourcesBy
  split
  · exact sortByStr_perm _ _ _
  · split
    · exact sortByNat_perm _ _ _
    · exact sortByStr_perm _ _ _

theorem length_filterMap_eq_countP {α β : Type} (f : α → Option β) (l : List α) :
    (l.filterMap f).length = l.countP (fun a => (f a).isSome) := by
  induction l with
  | nil => rfl
  | cons a t ih =>
    cases h : f a <;>
      simp [List.filterMap_cons, h, List.countP_cons, ih]

/-! ## Claim theorems -/

/-- C3: for a resource whose stored row has `isGlobal = true`,
`getResourceAccessList` returns exactly the full user table, each user
tagged `global` (with the call-time clock as `createdAt`), and metadata
`directShares = 0`, `groupShares = 0`, `isGlobal = true` — whatever
share rows are present in the store. -/
theorem global_resource_access_list (db : DB) (now : Date) (resourceId : String)
    (r : Resource) (hr : findRow (fun x => x.id == resourceId) db.resources = some r)
    (hg : r.isGlobal = true) :
    SharingService.getResourceAccessList db now resourceId = .ok
      { resource := r
        users := db.users.map (fun u =>
          { id := u.id, name := u.name, email := u.email
            createdAt := now, accessType := AccessType.global })
        metadata := { totalUsers := db.users.length
                      directShares := 0, groupShares := 0, isGlobal := true } } := by
  unfold SharingService.getResourceAccessList
  rw [hr]
  simp [hg]

/-- Witness for C3: `dbPair`'s resource `r2` is global and carries no
shares; the access list is the single user tagged `global`. -/
theorem global_resource_access_list_witness :
    findRow (fun x => x.id == "r2") dbPair.resources = some res2 ∧
    SharingService.getResourceAccessList dbPair 11 "r2" = .ok
      { resource := res2
        users := dbPair.users.map (fun u =>
          { id := u.id, name := u.name, email := u.email
            createdAt := 11, accessType := AccessType.global })
        metadata := { totalUsers := dbPair.users.length
                      directShares := 0, groupShares := 0, isGlobal := true } } :=
  ⟨by decide, global_resource_access_list dbPair 11 "r2" res2 (by decide) (by decide)⟩

/-- C4: for a resource id with no stored row, `checkUserAccess` returns
`hasAccess = false` without an error, while `getResourceAccessList` on
the same id fails with the `NotFoundError` built by
`createNotFoundError("Resource", id)`. -/
theorem missing_resource_check_vs_list (db : DB) (now : Date) (userId resourceId : String)
    (h : findRow (fun r => r.id == resourceId) db.resources = none) :
    SharingService.checkUserAccess db userId resourceId = .ok { hasAccess := false } ∧
    SharingService.getResourceAccessList db now resourceId =
      .error (createNotFoundError "Resource" resourceId) := by
  constructor
  · unfold SharingService.checkUserAccess
    rw [h]
  · unfold SharingService.getResourceAccessList
    rw [h]

/-- Witness for C4: the id `"nope"` has no resource row in `dbPair`. -/
theorem missing_resource_check_vs_list_witness :
    findRow (fun r => r.id == "nope") dbPair.resources = none ∧
    SharingService.checkUserAccess dbPair "u1" "nope" = .ok { hasAccess := false } ∧
    SharingService.getResourceAccessList dbPair 0 "nope" =
      .error (createNotFoundError "Resource" "nope") :=
  ⟨by decide, missing_resource_check_vs_list dbPair 0 "u1" "nope" (by decide)⟩

/-- C2 (code bug evaluation): in `dbOverlap`, user `u1` is both directly
shared resource `r1` and a member of group `g1` which is shared `r1`;
`getResourceAccessList` lists the user twice — once with reason
`direct`, once with reason `group` — and counts `totalUsers = 2`,
because the SQL `SELECT DISTINCT id, name, email, access_type`
deduplicates whole rows, not users. -/
theorem access_list_lists_overlap_user_twice :
    (SharingService.getResourceAccessList dbOverlap 7 "r1").toOption.map
        (fun res => (res.users.map (fun urec => (urec.id, urec.accessType)),
          res.metadata.totalUsers)) =
      some ([("u1", AccessType.direct), ("u1", AccessType.group)], 2) := by
  decide

/-- C7 (code bug evaluation): the exported `SharingService.createShare`
performs no target validation — on `dbShareOnly` (whose user table is
empty) it successfully inserts a share targeting the nonexistent user
`"ghost"` — whereas the validating variant in
`sharing.service.simple.ts` rejects the same request with a not-found
error; the duplicate-grant rejection, by contrast, does hold: re-adding
`dbOverlap`'s existing `(r1, user, u1)` grant fails with the wrapped
unique-constraint error and no row is added. -/
theorem create_share_skips_target_validation :
    findRow (fun u => u.id == "ghost") dbShareOnly.users = none ∧
    SharingService.createShare dbShareOnly "s9" 8
        { resourceId := "r1", shareType := .user, targetId := "ghost" } =
      .ok { dbShareOnly with resourceShares :=
        [{ id := "s9", resourceId := "r1", shareType := .user
           targetId := "ghost", createdAt := 8 }] } ∧
    SimpleSharingService.createShare dbShareOnly "s9" 8
        { resourceId := "r1", shareType := .user, targetId := "ghost" } =
      .error (createNotFoundError "User" "ghost") ∧
    SharingService.createShare dbOverlap "s9" 8
        { resourceId := "r1", shareType := .user, targetId := "u1" } =
      .error (createDatabaseError
        "Failed to create share: Unique constraint failed: (resource_id, share_type, target_id)") := by
  refine ⟨by decide, by decide, by decide, by decide⟩

/-- Helper: the value of `getResourceAccessList` on a stored global
resource. -/
theorem accessList_eq_global (db : DB) (now : Date) (rid : String) (r : Resource)
    (hfind : findRow (fun x => x.id == rid) db.resources = some r)
    (hg : r.isGlobal = true) :
    SharingService.getResourceAccessList db now rid = .ok
      { resource := r
        users := db.users.map (fun u =>
          { id := u.id, name := u.name, email := u.email
            createdAt := now, accessType := AccessType.global })
        metadata := { totalUsers := db.users.length
                      directShares := 0, groupShares := 0, isGlobal := true } } := by
  unfold SharingService.getResourceAccessList
  rw [hfind]
  simp [hg]

/-- Helper: the value of `getResourceAccessList` on a stored non-global
resource. -/
theorem accessList_eq_nonglobal (db : DB) (now : Date) (rid : String) (r : Resource)
    (hfind : findRow (fun x => x.id == rid) db.resources = some r)
    (hg : r.isGlobal = false) :
    SharingService.getResourceAccessList db now rid = .ok
      { resource := r
        users := (SharingService.accessQueryRows db rid).map (fun row =>
          { id := row.id, name := row.name, email := row.email
            createdAt := now, accessType := row.accessType })
        metadata := { totalUsers := (SharingService.accessQueryRows db rid).length
                      directShares := (db.resourceShares.filter (fun s =>
                        s.resourceId == rid && s.shareType == ShareType.user)).length
                      groupShares := (db.resourceShares.filter (fun s =>
                        s.resourceId == rid && s.shareType == ShareType.group)).length
                      isGlobal := false } } := by
  unfold SharingService.getResourceAccessList
  rw [hfind]
  simp [hg]

/-- Helper: the value of `getUserResources` on a stored user. -/
theorem getUserResources_eq (db : DB) (userId : String) (u : User)
    (limit offset : Nat) (sort : String) (order : SortOrder)
    (hu : findRow (fun x => x.id == userId) db.users = some u) :
    SharingService.getUserResources db userId limit offset sort order = .ok
      { user := u
        resources :=
          if sort == "access_type" then
            sortByStr (fun r => SharingService.accessTypeStr r.accessType) order
              (((SharingService.userAccessibleList db userId sort order).drop offset).take limit)
          else ((SharingService.userAccessibleList db userId sort order).drop offset).take limit
        pagination := { total := (SharingService.userAccessibleList db userId sort order).length
                        limit := limit, offset := offset
                        hasMore := decide (offset + limit <
                          (SharingService.userAccessibleList db userId sort order).length) } } := by
  unfold SharingService.getUserResources
  rw [hu]

/-- C9: the `createdAt` field of every user returned by
`getResourceAccessList` is the invocation-time clock (`new Date()`),
not the user's stored creation timestamp: on a fixed store, calls at
clocks `t1` and `t2` return results identical in every field except
the per-user `createdAt`, which always equals the respective clock. -/
theorem access_list_created_at_is_clock (db : DB) (resourceId : String) (t1 t2 : Date)
    (res1 : ResourceAccessListResponse)
    (h1 : SharingService.getResourceAccessList db t1 resourceId = .ok res1) :
    (∀ urec ∈ res1.users, urec.createdAt = t1) ∧
    ∃ res2, SharingService.getResourceAccessList db t2 resourceId = .ok res2 ∧
      res2.resource = res1.resource ∧
      res2.metadata = res1.metadata ∧
      res2.users = res1.users.map (fun urec => { urec with createdAt := t2 }) := by
  obtain ⟨r, hfind⟩ : ∃ r, findRow (fun x => x.id == resourceId) db.resources = some r := by
    cases hfind : findRow (fun x => x.id == resourceId) db.resources with
    | none =>
      unfold SharingService.getResourceAccessList at h1
      rw [hfind] at h1
      cases h1
    | some r => exact ⟨r, rfl⟩
  cases hgl : r.isGlobal with
  | true =>
    rw [accessList_eq_global db t1 resourceId r hfind hgl] at h1
    injection h1 with h1
    subst h1
    constructor
    · intro urec hmem
      simp only [List.mem_map] at hmem
      obtain ⟨u, -, rfl⟩ := hmem
      rfl
    · exact ⟨_, accessList_eq_global db t2 resourceId r hfind hgl, rfl, rfl, by
        rw [List.map_map]; rfl⟩
  | false =>
    rw [accessList_eq_nonglobal db t1 resourceId r hfind hgl] at h1
    injection h1 with h1
    subst h1
    constructor
    · intro urec hmem
      simp only [List.mem_map] at hmem
      obtain ⟨row, -, rfl⟩ := hmem
      rfl
    · exact ⟨_, accessList_eq_nonglobal db t2 resourceId r hfind hgl, rfl, rfl, by
        rw [List.map_map]; rfl⟩

/-- Witness for C9: on `dbOverlap`'s resource `r1`, clocks 3 and 9. -/
theorem access_list_created_at_is_clock_witness :
    (∃ res1, SharingService.getResourceAccessList dbOverlap 3 "r1" = .ok res1 ∧
      (∀ urec ∈ res1.users, urec.createdAt = 3) ∧
      ∃ res2, SharingService.getResourceAccessList dbOverlap 9 "r1" = .ok res2 ∧
        res2.resource = res1.resource ∧
        res2.metadata = res1.metadata ∧
        res2.users = res1.users.map (fun urec => { urec with createdAt := 9 })) := by
  have hok : ∃ res1, SharingService.getResourceAccessList dbOverlap 3 "r1" = .ok res1 := by
    exact ⟨_, rfl⟩
  obtain ⟨res1, h1⟩ := hok
  obtain ⟨ha, hb⟩ := access_list_created_at_is_clock dbOverlap "r1" 3 9 res1 h1
  exact ⟨res1, h1, ha, hb⟩

/-- C6: for a stored user and any `limit`/`offset`, `getUserResources`
returns a page of length `min limit (total - offset)` (with truncated
subtraction, i.e. `min(L, max(0, total - O))`), where `pagination.total`
is the access-filtered resource count of the whole table — a value
independent of `limit` and `offset` — and `hasMore` is exactly
`offset + limit < total`. -/
theorem user_resources_pagination (db : DB) (userId : String) (u : User)
    (hu : findRow (fun x => x.id == userId) db.users = some u)
    (limit offset : Nat) (sort : String) (order : SortOrder) :
    ∃ res, SharingService.getUserResources db userId limit offset sort order = .ok res ∧
      res.pagination.total = userAccessibleCount db userId ∧
      res.resources.length = min limit (res.pagination.total - offset) ∧
      res.pagination.hasMore = decide (offset + limit < res.pagination.total) := by
  refine ⟨_, getUserResources_eq db userId u limit offset sort order hu, ?_, ?_, rfl⟩
  · show (SharingService.userAccessibleList db userId sort order).length =
      userAccessibleCount db userId
    unfold SharingService.userAccessibleList userAccessibleCount
    rw [length_filterMap_eq_countP]
    exact (orderResourcesBy_perm sort order db.resources).countP_eq _
  · dsimp only
    split
    · rw [List.Perm.length_eq (sortByStr_perm _ order _),
        List.length_take, List.length_drop]
    · rw [List.length_take, List.length_drop]

/-- Witness for C6: `dbPair`'s user `u1` can access 2 resources; with
`limit = 1, offset = 1` the page has length `min 1 (2 - 1) = 1` and
`hasMore = false`. -/
theorem user_resources_pagination_witness :
    findRow (fun x => x.id == "u1") dbPair.users = some aliceUser ∧
    ∃ res, SharingService.getUserResources dbPair "u1" 1 1 "name" SortOrder.asc = .ok res ∧
      res.pagination.total = userAccessibleCount dbPair "u1" ∧
      res.resources.length = min 1 (res.pagination.total - 1) ∧
      res.pagination.hasMore = decide (1 + 1 < res.pagination.total) :=
  ⟨by decide,
    user_resources_pagination dbPair "u1" aliceUser (by decide) 1 1 "name" SortOrder.asc⟩

/-- C5 counterexample: on `dbWindow` with `limit = 1, offset = 0,
minUsers = 1`, the claimed filter-before-window page is the global
resource `rb` (the only resource with `userCount ≥ 1`), but the code
windows the sorted table first — the window holds only `ra` with
`userCount = 0`, which the filter then removes, so the returned page is
empty.  The claim's page equation is therefore false on this state. -/
theorem minusers_filter_claim_cex :
    (SharingService.getResourcesWithUserCount dbWindow 1 0 1 "name" SortOrder.asc).resources = [] ∧
    claimedFilterFirstPage dbWindow 1 0 1 "name" SortOrder.asc =
      [{ id := "rb", name := "b", description := none, isGlobal := true, createdAt := 1
         userCount := 1, directShares := 0, groupShares := 0 }] ∧
    (SharingService.getResourcesWithUserCount dbWindow 1 0 1 "name" SortOrder.asc).resources ≠
      claimedFilterFirstPage dbWindow 1 0 1 "name" SortOrder.asc := by
  refine ⟨by decide, by decide, by decide⟩

/-- C5 as amended: `getResourcesWithUserCount` applies the `minUsers`
filter after windowing, not before: the returned page equals the
`minUsers`-filter of the per-resource statistics computed over the
window `[offset, offset + limit)` of the sorted resource table
(re-sorted in memory when `sort = 'user_count'`); consequently every
returned resource satisfies `userCount ≥ minUsers` and the page never
exceeds `limit` — but resources outside the window are never
considered, however many users they have. -/
theorem minusers_filter_applied_after_window (db : DB) (limit offset minUsers : Nat)
    (sort : String) (order : SortOrder) :
    ((SharingService.getResourcesWithUserCount db limit offset minUsers sort order).resources =
      (let windowed :=
        (((SharingService.orderResourcesBy sort order db.resources).drop offset).take limit).map
          (SharingService.resourceUserCountEntry db db.users.length)
       let filtered := windowed.filter (fun r => decide (minUsers ≤ r.userCount))
       if sort == "user_count" then sortByNat (fun r => r.userCount) order filtered
       else filtered)) ∧
    (∀ r ∈ (SharingService.getResourcesWithUserCount db limit offset minUsers sort order).resources,
      minUsers ≤ r.userCount) ∧
    (SharingService.getResourcesWithUserCount db limit offset minUsers sort order).resources.length ≤
      limit := by
  refine ⟨rfl, ?_, ?_⟩
  · intro r hr
    simp only [SharingService.getResourcesWithUserCount] at hr
    have hr' : r ∈ (((((SharingService.orderResourcesBy sort order db.resources).drop offset).take
        limit).map (SharingService.resourceUserCountEntry db db.users.length)).filter
          (fun x => decide (minUsers ≤ x.userCount))) := by
      revert hr
      split
      · intro hr
        exact (List.Perm.mem_iff (sortByNat_perm _ order _)).mp hr
      · exact id
    exact of_decide_eq_true (List.mem_filter.mp hr').2
  · simp only [SharingService.getResourcesWithUserCount]
    split
    · rw [List.Perm.length_eq (sortByNat_perm _ order _)]
      exact le_trans (List.length_filter_le _ _)
        (by rw [List.length_map]; exact List.length_take_le _ _)
    · exact le_trans (List.length_filter_le _ _)
        (by rw [List.length_map]; exact List.length_take_le _ _)

/-- A group id is in `userGroupIdsOf` exactly when a membership row
links the user to that group. -/
theorem mem_userGroupIdsOf {db : DB} {uid gid : String} :
    gid ∈ userGroupIdsOf db uid ↔
      ∃ ug ∈ db.userGroups, ug.userId = uid ∧ ug.groupId = gid := by
  unfold userGroupIdsOf
  simp only [List.mem_map, List.mem_filter, beq_iff_eq]
  constructor
  · rintro ⟨ug, ⟨hmem, huid⟩, hgid⟩
    exact ⟨ug, hmem, huid, hgid⟩
  · rintro ⟨ug, hmem, huid, hgid⟩
    exact ⟨ug, ⟨hmem, huid⟩, hgid⟩

/-- `HasDirectShare` matches the single-predicate `findFirst` used by
`checkUserAccess`. -/
theorem hasDirect_iff_find (db : DB) (uid rid : String) :
    HasDirectShare db uid rid ↔
      (findRow (fun s => s.resourceId == rid && s.shareType == ShareType.user
        && s.targetId == uid) db.resourceShares).isSome = true := by
  unfold HasDirectShare findRow
  rw [List.find?_isSome]
  simp [Bool.and_eq_true, beq_iff_eq, and_assoc]

/-- `HasDirectShare` matches the filter-then-find used by
`resourceAccessEntry`. -/
theorem hasDirect_iff_findRow_filter (db : DB) (uid rid : String) :
    HasDirectShare db uid rid ↔
      (findRow (fun s => s.shareType == ShareType.user && s.targetId == uid)
        (db.resourceShares.filter (fun s => s.resourceId == rid))).isSome = true := by
  unfold HasDirectShare findRow
  rw [List.find?_isSome]
  simp [List.mem_filter, Bool.and_eq_true, beq_iff_eq, and_assoc]

/-- `List.contains` decides membership. -/
theorem contains_iff_mem_str {l : List String} {a : String} :
    l.contains a = true ↔ a ∈ l :=
  List.elem_iff

/-- `HasGroupShare` matches the single-predicate `findFirst` used by
`checkUserAccess`. -/
theorem hasGroup_iff_find (db : DB) (uid rid : String) :
    HasGroupShare db uid rid ↔
      (findRow (fun s => s.resourceId == rid && s.shareType == ShareType.group
        && (userGroupIdsOf db uid).contains s.targetId) db.resourceShares).isSome = true := by
  unfold HasGroupShare findRow
  rw [List.find?_isSome]
  simp only [Bool.and_eq_true, beq_iff_eq, contains_iff_mem_str, mem_userGroupIdsOf]
  constructor
  · rintro ⟨s, hs, h1, h2, ug, hug, hu1, hu2⟩
    exact ⟨s, hs, ⟨h1, h2⟩, ug, hug, hu1, hu2⟩
  · rintro ⟨s, hs, ⟨h1, h2⟩, ug, hug, hu1, hu2⟩
    exact ⟨s, hs, h1, h2, ug, hug, hu1, hu2⟩

/-- `HasGroupShare` matches the filter-then-find used by
`resourceAccessEntry`. -/
theorem hasGroup_iff_findRow_filter (db : DB) (uid rid : String) :
    HasGroupShare db uid rid ↔
      (findRow (fun s => s.shareType == ShareType.group
        && (userGroupIdsOf db uid).contains s.targetId)
        (db.resourceShares.filter (fun s => s.resourceId == rid))).isSome = true := by
  unfold HasGroupShare findRow
  rw [List.find?_isSome]
  simp only [List.mem_filter, Bool.and_eq_true, beq_iff_eq, contains_iff_mem_str,
    mem_userGroupIdsOf]
  constructor
  · rintro ⟨s, hs, h1, h2, ug, hug, hu1, hu2⟩
    exact ⟨s, ⟨hs, h1⟩, h2, ug, hug, hu1, hu2⟩
  · rintro ⟨s, ⟨hs, h1⟩, h2, ug, hug, hu1, hu2⟩
    exact ⟨s, hs, h1, h2, ug, hug, hu1, hu2⟩

/-- `resourceAccessEntry` preserves the resource id. -/
theorem resourceAccessEntry_id (db : DB) (uid : String) (gids : List String)
    (r : Resource) (e : ResourceWithAccessType)
    (h : SharingService.resourceAccessEntry db uid gids r = some e) :
    e.id = r.id := by
  unfold SharingService.resourceAccessEntry at h
  split at h
  · cases h; rfl
  · dsimp only at h
    split at h
    · cases h; rfl
    · split at h
      · cases h; rfl
      · cases h

/-- `checkUserAccess` on a stored resource succeeds, and its
`hasAccess` bit is exactly "global, or direct share, or group share". -/
theorem checkUserAccess_hasAccess_iff (db : DB) (uid rid : String) (r : Resource)
    (hr : findRow (fun x => x.id == rid) db.resources = some r) :
    ∃ c, SharingService.checkUserAccess db uid rid = .ok c ∧
      (c.hasAccess = true ↔
        (r.isGlobal = true ∨ HasDirectShare db uid rid ∨ HasGroupShare db uid rid)) := by
  unfold SharingService.checkUserAccess
  rw [hr]
  dsimp only
  by_cases hg : r.isGlobal = true
  · rw [if_pos hg]
    exact ⟨_, rfl, by simp [hg]⟩
  · rw [if_neg hg]
    cases hd : findRow (fun s => s.resourceId == rid && s.shareType == ShareType.user
        && s.targetId == uid) db.resourceShares with
    | some directAccess =>
      refine ⟨_, rfl, ?_⟩
      have hdir : HasDirectShare db uid rid :=
        (hasDirect_iff_find db uid rid).mpr (by rw [hd]; rfl)
      simp [hdir]
    | none =>
      dsimp only
      cases hgrp : findRow (fun s => s.resourceId == rid && s.shareType == ShareType.group
          && (userGroupIdsOf db uid).contains s.targetId) db.resourceShares with
      | some groupAccess =>
        refine ⟨_, rfl, ?_⟩
        have hgrps : HasGroupShare db uid rid :=
          (hasGroup_iff_find db uid rid).mpr (by rw [hgrp]; rfl)
        simp [hgrps]
      | none =>
        refine ⟨_, rfl, ?_⟩
        have h1 : ¬ HasDirectShare db uid rid := fun hcon => by
          have := (hasDirect_iff_find db uid rid).mp hcon
          rw [hd] at this
          cases this
        have h2 : ¬ HasGroupShare db uid rid := fun hcon => by
          have := (hasGroup_iff_find db uid rid).mp hcon
          rw [hgrp] at this
          cases this
        simp [hg, h1, h2]

/-- `resourceAccessEntry` yields an entry exactly when one of the three
grant mechanisms applies. -/
theorem resourceAccessEntry_isSome_iff (db : DB) (uid : String) (r : Resource) :
    (SharingService.resourceAccessEntry db uid (userGroupIdsOf db uid) r).isSome = true ↔
      (r.isGlobal = true ∨ HasDirectShare db uid r.id ∨ HasGroupShare db uid r.id) := by
  unfold SharingService.resourceAccessEntry
  by_cases hg : r.isGlobal = true
  · simp [hg]
  · rw [if_neg hg]
    dsimp only
    cases hd : findRow (fun s => s.shareType == ShareType.user && s.targetId == uid)
        (db.resourceShares.filter (fun s => s.resourceId == r.id)) with
    | some directShare =>
      have hdir : HasDirectShare db uid r.id :=
        (hasDirect_iff_findRow_filter db uid r.id).mpr (by rw [hd]; rfl)
      simp [hdir]
    | none =>
      cases hgrp : findRow (fun s => s.shareType == ShareType.group
          && (userGroupIdsOf db uid).contains s.targetId)
          (db.resourceShares.filter (fun s => s.resourceId == r.id)) with
      | some groupShare =>
        have hgrps : HasGroupShare db uid r.id :=
          (hasGroup_iff_findRow_filter db uid r.id).mpr (by rw [hgrp]; rfl)
        simp [hgrps]
      | none =>
        have h1 : ¬ HasDirectShare db uid r.id := fun hcon => by
          have := (hasDirect_iff_findRow_filter db uid r.id).mp hcon
          rw [hd] at this
          cases this
        have h2 : ¬ HasGroupShare db uid r.id := fun hcon => by
          have := (hasGroup_iff_findRow_filter db uid r.id).mp hcon
          rw [hgrp] at this
          cases this
        simp [hg, h1, h2]

/-- A stored resource's id appears among the access-filtered list's ids
exactly when the per-resource access decision grants access (resource
ids assumed unique, as the primary key guarantees). -/
theorem mem_userAccessible_ids_iff (db : DB) (uid : String) (r : Resource)
    (hmemr : r ∈ db.resources) (hnodup : (db.resources.map (fun x => x.id)).Nodup)
    (sort : String) (order : SortOrder) :
    r.id ∈ (SharingService.userAccessibleList db uid sort order).map (fun e => e.id) ↔
      (SharingService.resourceAccessEntry db uid (userGroupIdsOf db uid) r).isSome = true := by
  unfold SharingService.userAccessibleList
  constructor
  · intro h
    simp only [List.mem_map, List.mem_filterMap] at h
    obtain ⟨e, ⟨a, ha, hae⟩, heid⟩ := h
    have hamem : a ∈ db.resources :=
      ((orderResourcesBy_perm sort order db.resources).mem_iff).mp ha
    have haid : a.id = r.id := by
      rw [← heid, resourceAccessEntry_id db uid _ a e hae]
    have haeq : a = r := List.inj_on_of_nodup_map hnodup hamem hmemr haid
    rw [← haeq]
    rw [hae]
    rfl
  · intro h
    obtain ⟨e, he⟩ := Option.isSome_iff_exists.mp h
    refine List.mem_map.mpr ⟨e, List.mem_filterMap.mpr ⟨r, ?_, he⟩,
      resourceAccessEntry_id db uid _ r e he⟩
    exact ((orderResourcesBy_perm sort order db.resources).mem_iff).mpr hmemr

/-- A stored user's id appears among the non-global access-query rows
exactly when the user holds a direct or group grant on the resource. -/
theorem mem_accessQueryRows_ids_iff (db : DB) (rid : String) (u : User)
    (hu : u ∈ db.users) :
    u.id ∈ (SharingService.accessQueryRows db rid).map (fun row => row.id) ↔
      (HasDirectShare db u.id rid ∨ HasGroupShare db u.id rid) := by
  unfold SharingService.accessQueryRows
  have hrows : ∀ row : AccessRow,
      row ∈ sortByStr (fun x => x.name) SortOrder.asc
          ((SharingService.directRows db rid ++ SharingService.groupRows db rid).dedup) ↔
        row ∈ SharingService.directRows db rid ++ SharingService.groupRows db rid :=
    fun row => ((sortByStr_perm _ _ _).mem_iff).trans List.mem_dedup
  simp only [List.mem_map]
  constructor
  · rintro ⟨row, hrow, hid⟩
    rcases List.mem_append.mp ((hrows row).mp hrow) with hdir | hgrp
    · left
      unfold SharingService.directRows at hdir
      simp only [List.mem_flatMap, List.mem_map, List.mem_filter, Bool.and_eq_true,
        beq_iff_eq] at hdir
      obtain ⟨u2, hu2, s, ⟨hs, ⟨hts, hrid2⟩, hty⟩, hroweq⟩ := hdir
      refine ⟨s, hs, hrid2, hty, ?_⟩
      rw [← hts, ← hid, ← hroweq]
    · right
      unfold SharingService.groupRows at hgrp
      simp only [List.mem_flatMap, List.mem_map, List.mem_filter, Bool.and_eq_true,
        beq_iff_eq] at hgrp
      obtain ⟨u2, hu2, ug, hug, hin⟩ := hgrp
      split at hin
      · simp only [List.mem_map, List.mem_filter, Bool.and_eq_true, beq_iff_eq] at hin
        obtain ⟨s, ⟨hs, ⟨hgid, hrid2⟩, hty⟩, hroweq⟩ := hin
        refine ⟨s, hs, hrid2, hty, ug, hug, ?_, hgid⟩
        next heq =>
          rw [← heq, ← hid, ← hroweq]
      · cases hin
  · rintro (⟨s, hs, h1, h2, h3⟩ | ⟨s, hs, h1, h2, ug, hug, hu1, hu2⟩)
    · refine ⟨⟨u.id, u.name, u.email, AccessType.direct⟩, ?_, rfl⟩
      apply (hrows _).mpr
      apply List.mem_append.mpr
      left
      unfold SharingService.directRows
      simp only [List.mem_flatMap, List.mem_map, List.mem_filter, Bool.and_eq_true,
        beq_iff_eq]
      exact ⟨u, hu, s, ⟨hs, ⟨h3.symm, h1⟩, h2⟩, rfl⟩
    · refine ⟨⟨u.id, u.name, u.email, AccessType.group⟩, ?_, rfl⟩
      apply (hrows _).mpr
      apply List.mem_append.mpr
      right
      unfold SharingService.groupRows
      simp only [List.mem_flatMap]
      refine ⟨u, hu, ug, hug, ?_⟩
      rw [if_pos (beq_iff_eq.mpr hu1.symm)]
      simp only [List.mem_map, List.mem_filter, Bool.and_eq_true, beq_iff_eq]
      exact ⟨s, ⟨hs, ⟨hu2, h1⟩, h2⟩, trivial⟩

/-- C1: for a stored user and a stored resource (ids unique, as the
primary keys guarantee), the three resolution paths agree:
`checkUserAccess(u, r).hasAccess` holds iff `r` appears in the
(unpaginated) `getUserResources(u)` result list iff `u` appears in
`getResourceAccessList(r)`'s user list. -/
theorem three_access_paths_agree (db : DB) (now : Date) (u : User) (r : Resource)
    (hu : findRow (fun x => x.id == u.id) db.users = some u)
    (hr : findRow (fun x => x.id == r.id) db.resources = some r)
    (hnodup : (db.resources.map (fun x => x.id)).Nodup) :
    ∃ c ures alist,
      SharingService.checkUserAccess db u.id r.id = .ok c ∧
      SharingService.getUserResources db u.id db.resources.length 0 "name" SortOrder.asc =
        .ok ures ∧
      SharingService.getResourceAccessList db now r.id = .ok alist ∧
      (c.hasAccess = true ↔ r.id ∈ ures.resources.map (fun e => e.id)) ∧
      (c.hasAccess = true ↔ u.id ∈ alist.users.map (fun w => w.id)) := by
  have hmemr : r ∈ db.resources := List.mem_of_find?_eq_some hr
  have hmemu : u ∈ db.users := List.mem_of_find?_eq_some hu
  obtain ⟨c, hc, hciff⟩ := checkUserAccess_hasAccess_iff db u.id r.id r hr
  have hlen : (SharingService.userAccessibleList db u.id "name" SortOrder.asc).length ≤
      db.resources.length := by
    unfold SharingService.userAccessibleList
    calc ((SharingService.orderResourcesBy "name" SortOrder.asc db.resources).filterMap
        (SharingService.resourceAccessEntry db u.id (userGroupIdsOf db u.id))).length
        ≤ (SharingService.orderResourcesBy "name" SortOrder.asc db.resources).length :=
          List.length_filterMap_le _ _
      _ = db.resources.length :=
          (orderResourcesBy_perm "name" SortOrder.asc db.resources).length_eq
  have hures2 : SharingService.getUserResources db u.id db.resources.length 0 "name"
      SortOrder.asc = .ok
        { user := u
          resources := SharingService.userAccessibleList db u.id "name" SortOrder.asc
          pagination :=
            { total := (SharingService.userAccessibleList db u.id "name" SortOrder.asc).length
              limit := db.resources.length, offset := 0
              hasMore := decide (0 + db.resources.length <
                (SharingService.userAccessibleList db u.id "name" SortOrder.asc).length) } } := by
    rw [getUserResources_eq db u.id u db.resources.length 0 "name" SortOrder.asc hu,
      if_neg (show ¬ (("name" == "access_type") = true) by decide), List.drop_zero,
      List.take_of_length_le hlen]
  have iff1 : (c.hasAccess = true ↔
      r.id ∈ (SharingService.userAccessibleList db u.id "name" SortOrder.asc).map
        (fun e => e.id)) :=
    hciff.trans ((resourceAccessEntry_isSome_iff db u.id r).symm.trans
      (mem_userAccessible_ids_iff db u.id r hmemr hnodup "name" SortOrder.asc).symm)
  cases hgl : r.isGlobal with
  | true =>
    refine ⟨c, _, _, hc, hures2, accessList_eq_global db now r.id r hr hgl, iff1, ?_⟩
    have hmemid : u.id ∈ (db.users.map (fun u2 =>
        ({ id := u2.id, name := u2.name, email := u2.email, createdAt := now
           accessType := AccessType.global } : UserWithAccessType))).map (fun w => w.id) := by
      simp only [List.map_map, List.mem_map]
      exact ⟨u, hmemu, rfl⟩
    exact ⟨fun _ => hmemid, fun _ => hciff.mpr (Or.inl hgl)⟩
  | false =>
    refine ⟨c, _, _, hc, hures2, accessList_eq_nonglobal db now r.id r hr hgl, iff1, ?_⟩
    have hng : ¬ (r.isGlobal = true) := by
      rw [hgl]
      exact Bool.false_ne_true
    have helim : (r.isGlobal = true ∨ HasDirectShare db u.id r.id ∨
        HasGroupShare db u.id r.id) ↔
        (HasDirectShare db u.id r.id ∨ HasGroupShare db u.id r.id) := by
      constructor
      · rintro (h | h)
        · exact absurd h hng
        · exact h
      · exact Or.inr
    have hmm : u.id ∈ ((SharingService.accessQueryRows db r.id).map (fun row =>
        ({ id := row.id, name := row.name, email := row.email, createdAt := now
           accessType := row.accessType } : UserWithAccessType))).map (fun w => w.id) ↔
        u.id ∈ (SharingService.accessQueryRows db r.id).map (fun row => row.id) := by
      rw [List.map_map]
      exact Iff.rfl
    exact hciff.trans (helim.trans
      ((mem_accessQueryRows_ids_iff db r.id u hmemu).symm.trans hmm.symm))

/-- Witness for C1: on `dbPair`, user `u1` and the directly-shared
resource `r1`. -/
theorem three_access_paths_agree_witness :
    (findRow (fun x => x.id == aliceUser.id) dbPair.users = some aliceUser) ∧
    (findRow (fun x => x.id == res1.id) dbPair.resources = some res1) ∧
    (dbPair.resources.map (fun x => x.id)).Nodup ∧
    ∃ c ures alist,
      SharingService.checkUserAccess dbPair aliceUser.id res1.id = .ok c ∧
      SharingService.getUserResources dbPair aliceUser.id dbPair.resources.length 0 "name"
        SortOrder.asc = .ok ures ∧
      SharingService.getResourceAccessList dbPair 0 res1.id = .ok alist ∧
      (c.hasAccess = true ↔ res1.id ∈ ures.resources.map (fun e => e.id)) ∧
      (c.hasAccess = true ↔ aliceUser.id ∈ alist.users.map (fun w => w.id)) :=
  ⟨by decide, by decide, by decide,
    three_access_paths_agree dbPair 0 aliceUser res1 (by decide) (by decide) (by decide)⟩

/-- C8: every primary-entity not-found failure — user in
`getUserResources`, resource in `getResourceAccessList`, and user or
group target in the validating `createShare` — is the error built by
`createNotFoundError`, whose `code` is the single constant
`RESOURCE_NOT_FOUND` with `statusCode` 404 for every entity kind; the
kind and id appear only in the message and the details record. -/
theorem not_found_errors_single_code (db : DB) (now : Date) (newId : String)
    (userId listResourceId shareResourceId targetId : String)
    (limit offset : Nat) (sort : String) (order : SortOrder) :
    (∀ kind id, createNotFoundError kind id =
      { code := "RESOURCE_NOT_FOUND"
        message := kind ++ " with ID '" ++ id ++ "' not found"
        statusCode := 404
        details := some [("resource", kind), ("id", id)] }) ∧
    (findRow (fun x => x.id == userId) db.users = none →
      SharingService.getUserResources db userId limit offset sort order =
        .error (createNotFoundError "User" userId)) ∧
    (findRow (fun r => r.id == listResourceId) db.resources = none →
      SharingService.getResourceAccessList db now listResourceId =
        .error (createNotFoundError "Resource" listResourceId)) ∧
    (findRow (fun r => r.id == shareResourceId) db.resources = none →
      SimpleSharingService.createShare db newId now
          { resourceId := shareResourceId, shareType := .user, targetId := targetId } =
        .error (createNotFoundError "Resource" shareResourceId)) ∧
    ((findRow (fun r => r.id == shareResourceId) db.resources).isSome = true →
      findRow (fun x => x.id == targetId) db.users = none →
      SimpleSharingService.createShare db newId now
          { resourceId := shareResourceId, shareType := .user, targetId := targetId } =
        .error (createNotFoundError "User" targetId)) ∧
    ((findRow (fun r => r.id == shareResourceId) db.resources).isSome = true →
      findRow (fun g => g.id == targetId) db.groups = none →
      SimpleSharingService.createShare db newId now
          { resourceId := shareResourceId, shareType := .group, targetId := targetId } =
        .error (createNotFoundError "Group" targetId)) := by
  refine ⟨fun kind id => rfl, ?_, ?_, ?_, ?_, ?_⟩
  · intro h
    unfold SharingService.getUserResources
    rw [h]
  · intro h
    unfold SharingService.getResourceAccessList
    rw [h]
  · intro h
    unfold SimpleSharingService.createShare
    rw [h]
  · intro h1 h2
    obtain ⟨rsc, hrsc⟩ := Option.isSome_iff_exists.mp h1
    unfold SimpleSharingService.createShare
    rw [hrsc]
    dsimp only
    rw [h2]
  · intro h1 h2
    obtain ⟨rsc, hrsc⟩ := Option.isSome_iff_exists.mp h1
    unfold SimpleSharingService.createShare
    rw [hrsc]
    dsimp only
    rw [h2]

/-- Witness for C8: on `dbShareOnly` (resource `r1`, no users, no
groups), all four not-found paths produce `createNotFoundError` values,
hence the single code `RESOURCE_NOT_FOUND` with status 404. -/
theorem not_found_errors_single_code_witness :
    SharingService.getUserResources dbShareOnly "u9" 50 0 "name" SortOrder.asc =
      .error (createNotFoundError "User" "u9") ∧
    SharingService.getResourceAccessList dbShareOnly 0 "zz" =
      .error (createNotFoundError "Resource" "zz") ∧
    SimpleSharingService.createShare dbShareOnly "n1" 0
        { resourceId := "zz", shareType := .user, targetId := "u9" } =
      .error (createNotFoundError "Resource" "zz") ∧
    SimpleSharingService.createShare dbShareOnly "n1" 0
        { resourceId := "r1", shareType := .user, targetId := "u9" } =
      .error (createNotFoundError "User" "u9") ∧
    SimpleSharingService.createShare dbShareOnly "n1" 0
        { resourceId := "r1", shareType := .group, targetId := "g9" } =
      .error (createNotFoundError "Group" "g9") := by
  have hA := not_found_errors_single_code dbShareOnly 0 "n1" "u9" "zz" "zz" "u9" 50 0 "name"
    SortOrder.asc
  have hB := not_found_errors_single_code dbShareOnly 0 "n1" "u9" "zz" "r1" "u9" 50 0 "name"
    SortOrder.asc
  have hC := not_found_errors_single_code dbShareOnly 0 "n1" "u9" "zz" "r1" "g9" 50 0 "name"
    SortOrder.asc
  exact ⟨hA.2.1 (by decide), hA.2.2.1 (by decide), hA.2.2.2.1 (by decide),
    hB.2.2.2.2.1 (by decide) (by decide), hC.2.2.2.2.2 (by decide) (by decide)⟩

/-- C10: in both statistics operations, `pagination.total` is by
construction the length of the returned (windowed-then-filtered) page,
and `hasMore` compares that length with `limit`; concretely, on
`dbWindow` an exactly-full final page reports `hasMore = true`, and
raising `minUsers` shrinks `total`. -/
theorem stats_pagination_total_is_page_length :
    (∀ (db : DB) (limit offset minUsers : Nat) (sort : String) (order : SortOrder),
      (SharingService.getResourcesWithUserCount db limit offset minUsers sort order).pagination.total =
        (SharingService.getResourcesWithUserCount db limit offset minUsers sort order).resources.length ∧
      (SharingService.getResourcesWithUserCount db limit offset minUsers sort order).pagination.hasMore =
        ((SharingService.getResourcesWithUserCount db limit offset minUsers sort order).resources.length == limit)) ∧
    (∀ (db : DB) (limit offset minResources : Nat) (sort : String) (order : SortOrder),
      (SharingService.getUsersWithResourceCount db limit offset minResources sort order).pagination.total =
        (SharingService.getUsersWithResourceCount db limit offset minResources sort order).users.length ∧
      (SharingService.getUsersWithResourceCount db limit offset minResources sort order).pagination.hasMore =
        ((SharingService.getUsersWithResourceCount db limit offset minResources sort order).users.length == limit)) ∧
    (SharingService.getResourcesWithUserCount dbWindow 2 0 0 "name" SortOrder.asc).pagination.hasMore = true ∧
    (SharingService.getResourcesWithUserCount dbWindow 2 0 0 "name" SortOrder.asc).pagination.total = 2 ∧
    (SharingService.getResourcesWithUserCount dbWindow 2 0 1 "name" SortOrder.asc).pagination.total = 1 := by
  refine ⟨fun db limit offset minUsers sort order => ⟨rfl, rfl⟩,
    fun db limit offset minResources sort order => ⟨rfl, rfl⟩, by decide, by decide, by decide⟩

end ResourceSharing
